import Mathlib

/-!
# Solaris — Weekly Progress & Milestone Accumulation Engine

A shallow embedding of the core logic of the Solaris project tracker:
the report accumulator (`previouslyCompletedMilestones`, latest progress),
the report form state machine (`handleCheckboxChange`, `progressValue`,
the completion-dialog condition), the report validator and writer
(`reportSchemaErrors`, `saveReportAndProject`), and the project deletion
coordinator (`handleDeleteProject`).

JavaScript numbers are IEEE-754 binary64; the progress computation
`Math.round((checked.length / catalog.length) * 100)` is modelled exactly
with integer significand/exponent arithmetic (`flDivNat`, `flScale`,
`jsRoundF`), rounding to nearest-even at 53 significant bits as the
hardware does, and `Math.round` as round-half-up on the exact value of
the resulting double.
-/

namespace Solaris

/-! ## Data model (`src/lib/types.ts`) -/

/-- `Milestone` record from `src/lib/types.ts`. -/
structure Milestone where
  id : String
  name : String
  description : String
  projectType : String
deriving DecidableEq, Repr

/-- `Project` record from `src/lib/types.ts`. -/
structure Project where
  id : String
  name : String
  clientId : String
  managerId : String
  projectType : String
  startDate : String
  estimatedEndDate : String
  status : String
deriving DecidableEq, Repr

/-- `WeeklyReport` record from `src/lib/types.ts`: the value passed to
`ReportForm` (`id` is `none` for a not-yet-saved report). -/
structure WeeklyReport where
  id : Option String
  projectId : String
  week : Nat
  progress : Int
  summary : String
  status : String
  milestones : List String
  createdAt : String
deriving DecidableEq, Repr

/-- A report document stored under `projects/{projectId}/weeklyReports/{rid}`;
`rid` is the document key, the remaining fields are the document data. -/
structure StoredReport where
  rid : String
  projectId : String
  week : Nat
  progress : Int
  summary : String
  status : String
  milestones : List String
  createdAt : String
deriving DecidableEq, Repr

/-- The observable Firestore state the engine reads and writes:
`projects/{id}` documents and `projects/{projectId}/weeklyReports/{rid}`
sub-documents. -/
structure Store where
  projects : List Project
  reports : List StoredReport
deriving DecidableEq, Repr

/-- The three values of `z.enum(["On Track", "At Risk", "Off Track"])` in
`reportSchema`. -/
def allowedReportStatuses : List String := ["On Track", "At Risk", "Off Track"]

/-! ## JavaScript `Set` insertion, used by the milestone-set utilities -/

/-- One `Set.add` step of a JavaScript `Set<string>` kept as its insertion-order
element list: adding an element already present is a no-op, otherwise it is
appended. -/
def setAdd (acc : List String) (x : String) : List String :=
  if x ∈ acc then acc else acc ++ [x]

/-- `Array.from(new Set(l))`: deduplicate `l`, keeping first occurrences in
insertion order. -/
def jsSetOfList (l : List String) : List String :=
  l.foldl setAdd []

/-! ## Report Accumulator -/

/-- `previouslyCompletedMilestones` from
`src/components/projects/report-form-loader.tsx` (steps 2–3): collect, into a
single JavaScript `Set`, every milestone id of every report of the project
whose `week` is strictly less than `weekToCompare`, and return it as an array.
(The source's `orderBy("week", "desc")` only affects element order, which the
`Set` then fixes by insertion; membership is unaffected.) -/
def previouslyCompletedMilestones (reports : List StoredReport)
    (weekToCompare : Nat) : List String :=
  jsSetOfList (((reports.filter (fun r => decide (r.week < weekToCompare))).map
    (fun r => r.milestones)).flatten)

/-! ## IEEE-754 binary64 model for the progress computation

JavaScript evaluates `(checked.length / catalog.length) * 100` in binary64:
the quotient is rounded to nearest-even at 53 significant bits, then the
product with the (exactly representable) constant 100 is rounded the same
way.  `Math.round` then rounds the exact value of that double half-up.
Doubles are represented here as `m * 2^e` with an exact natural significand
`m`; the inputs (array lengths) are small integers, hence exact, and all
intermediate values are in the normal range, so overflow and subnormals
need no treatment. -/

/-- `⌊log2 n⌋` for `n ≥ 1`, computed with explicit structural fuel so that
the kernel can evaluate it (`0` when fuel runs out or `n < 2`). -/
def log2fuel : Nat → Nat → Nat
  | 0, _ => 0
  | fuel + 1, n => if 2 ≤ n then log2fuel fuel (n / 2) + 1 else 0

/-- `⌊log2 n⌋` for `1 ≤ n < 2^128`. -/
def nlog2 (n : Nat) : Nat := log2fuel 128 n

/-- Round `a / b` (with `b ≠ 0`) to the nearest integer, ties to even —
the IEEE-754 default rounding applied to an exact quotient. -/
def rneDiv (a b : Nat) : Nat :=
  let q := a / b
  let r := a % b
  if 2 * r < b then q
  else if b < 2 * r then q + 1
  else if q % 2 = 0 then q else q + 1

/-- A nonnegative binary64 value `m * 2^e` (`m = 0` encodes zero). -/
structure FloatVal where
  m : Nat
  e : Int
deriving DecidableEq, Repr

/-- Binary64 result of the JavaScript division `a / b` for naturals
`a`, `b` with `b ≠ 0` and `2^-64 ≤ a / b` (array lengths are `< 2^32`, so
every quotient the form can produce qualifies): the exponent is
`⌊log2 (a/b)⌋` and the 53-bit significand is the quotient rounded to
nearest-even. -/
def flDivNat (a b : Nat) : FloatVal :=
  if a = 0 then ⟨0, 0⟩
  else
    let e : Int := (nlog2 (a * 2 ^ 64 / b) : Int) - 64
    let m : Nat :=
      if 0 ≤ 52 - e then rneDiv (a * 2 ^ (52 - e).toNat) b
      else rneDiv a (b * 2 ^ (e - 52).toNat)
    ⟨m, e - 52⟩

/-- Binary64 result of multiplying the double `x` by a small exact natural
constant `c` (here always 100): the exact product is rounded to nearest-even
at 53 significant bits. -/
def flScale (x : FloatVal) (c : Nat) : FloatVal :=
  let p := x.m * c
  if p = 0 then ⟨0, 0⟩
  else
    let k := nlog2 p
    if k ≤ 52 then ⟨p, x.e⟩
    else ⟨rneDiv p (2 ^ (k - 52)), x.e + (k - 52 : Nat)⟩

/-- `Math.round` on a nonnegative double: round the exact value half-up,
`⌊v + 1/2⌋`. -/
def jsRoundF (x : FloatVal) : Nat :=
  if 0 ≤ x.e then x.m * 2 ^ x.e.toNat
  else (2 * x.m + 2 ^ (-x.e).toNat) / (2 ^ (-x.e).toNat * 2)

/-- The arithmetic core of `progressValue`:
`Math.round((k / n) * 100)` in binary64, and `0` when `n = 0`. -/
def progressCore (k n : Nat) : Int :=
  if n = 0 then 0 else (jsRoundF (flScale (flDivNat k n) 100) : Int)

/-! ## ReportForm derived state and handlers (`report-form.tsx`) -/

/-- The initial `checkedMilestones` state of `ReportForm` (the mount
effect): `Array.from(new Set([...previouslyCompletedMilestones,
...report.milestones]))`. -/
def initialCheckedMilestones (previouslyCompleted reportMilestones : List String) :
    List String :=
  jsSetOfList (previouslyCompleted ++ reportMilestones)

/-- `handleCheckboxChange` of `ReportForm`: checking appends the id to the
state list, unchecking filters out every occurrence. -/
def handleCheckboxChange (prev : List String) (milestoneId : String)
    (checked : Bool) : List String :=
  if checked then prev ++ [milestoneId]
  else prev.filter (fun i => decide (i ≠ milestoneId))

/-- `progressValue` of `ReportForm`: `0` while the catalog query has not
resolved (`!projectMilestones`) or when the catalog subset is empty,
otherwise `Math.round((checkedMilestones.length / projectMilestones.length)
* 100)` in binary64 arithmetic. -/
def progressValue (checkedMilestones : List String)
    (projectMilestones : Option (List Milestone)) : Int :=
  match projectMilestones with
  | none => 0
  | some ms =>
    if ms.length = 0 then 0
    else (jsRoundF (flScale (flDivNat checkedMilestones.length ms.length) 100) : Int)

/-- The guard of `handleFormSubmit` in `ReportForm`: the completion dialog
is shown when the catalog query has resolved, the checked list's length
equals the catalog subset's length, and the project is not already
`Completed`; otherwise the report is saved directly. -/
def handleFormSubmitShowsDialog (projectMilestones : Option (List Milestone))
    (checkedMilestones : List String) (projectStatus : String) : Bool :=
  match projectMilestones with
  | none => false
  | some ms =>
    checkedMilestones.length == ms.length && !(projectStatus == "Completed")

/-! ## Report Validator & Writer (`report-form.tsx`, `saveReportAndProject`) -/

/-- The payload assembled as `reportDataForValidation` and checked against
`reportSchema`. -/
structure ReportDraft where
  summary : String
  status : String
  milestones : List String
  progress : Int
deriving DecidableEq, Repr

/-- The field-level error map produced by `reportSchema.safeParse`:
`summary` must be a non-empty string, `status` one of the three enum values,
`progress` a number in `[0, 100]` (`milestones` is an optional string array,
always satisfied here). -/
def reportSchemaErrors (d : ReportDraft) : List (String × String) :=
  (if d.summary = "" then [("summary", "Summary is required.")] else []) ++
  (if d.status ∈ allowedReportStatuses then []
   else [("status", "Invalid enum value.")]) ++
  (if 0 ≤ d.progress ∧ d.progress ≤ 100 then []
   else [("progress", "Number out of range.")])

/-- Outcome of one `saveReportAndProject` call: either validation failed
with a field-level error map and nothing was written, or the new store
state together with the `finalReportData` document that was written. -/
inductive WriteOutcome where
  | invalid (errors : List (String × String)) : WriteOutcome
  | written (store : Store) (finalReportData : StoredReport) : WriteOutcome
deriving DecidableEq, Repr

/-- The store state a caller observes after an outcome (validation failure
leaves the store untouched). -/
def outcomeStore (store : Store) : WriteOutcome → Store
  | .invalid _ => store
  | .written s _ => s

/-- `addDoc` / `updateDoc` on `projects/{projectId}/weeklyReports`: a new
report is appended under a fresh key, an edit replaces the fields of the
document with the same key. -/
def writeReportDoc (store : Store) (isNew : Bool) (data : StoredReport) : Store :=
  if isNew then { store with reports := store.reports ++ [data] }
  else
    { store with
        reports := store.reports.map (fun r =>
          if r.projectId = data.projectId ∧ r.rid = data.rid then data else r) }

/-- `updateDoc(doc(firestore, 'projects', pid), { status })`. -/
def updateProjectStatus (store : Store) (pid : String) (newStatus : String) :
    Store :=
  { store with
      projects := store.projects.map (fun p =>
        if p.id = pid then { p with status := newStatus } else p) }

/-- `finalReportData` as assembled in `saveReportAndProject`: identity and
`week` come from the `report` prop, `createdAt` is preserved when
`report.id` exists and freshly stamped otherwise, and the validated fields
are spread in.  `newId` stands for the key Firestore generates in
`addDoc`. -/
def finalReportData (report : WeeklyReport) (summary status : String)
    (checkedMilestones : List String) (progressValue : Int)
    (now newId : String) : StoredReport :=
  { rid := report.id.getD newId
    projectId := report.projectId
    week := report.week
    createdAt := match report.id with
      | some _ => report.createdAt
      | none => now
    summary := summary
    status := status
    milestones := checkedMilestones
    progress := progressValue }

/-- `saveReportAndProject` of `ReportForm`: validate the draft built from the
form state; on failure surface the field errors and write nothing; on
success build `finalReportData`, create or update the report document, and,
only when `markProjectAsCompleted`, also set the project's status to
`Completed`. -/
def saveReportAndProject (store : Store) (project : Project)
    (report : WeeklyReport) (summary status : String)
    (checkedMilestones : List String) (progressValue : Int)
    (markProjectAsCompleted : Bool) (now newId : String) : WriteOutcome :=
  let errs := reportSchemaErrors ⟨summary, status, checkedMilestones, progressValue⟩
  if errs = [] then
    let data := finalReportData report summary status checkedMilestones
      progressValue now newId
    let store1 := writeReportDoc store report.id.isNone data
    let store2 :=
      if markProjectAsCompleted then
        updateProjectStatus store1 project.id "Completed"
      else store1
    .written store2 data
  else .invalid errs

/-! ## One full form session (loader + form + submit)

`ReportFormLoader` loads the report being edited (or builds
`newReportObject`), computes the inherited floor, and mounts `ReportForm`;
the user then toggles checkboxes (only checkboxes whose milestone is not in
the floor are enabled — `disabled={isPreviouslyCompleted}`) and submits,
possibly declining or confirming the completion dialog.  `applyFormWrite`
is that whole flow as one step on the store. -/

/-- The reports visible under `projects/{pid}/weeklyReports`. -/
def projectReports (store : Store) (pid : String) : List StoredReport :=
  store.reports.filter (fun r => decide (r.projectId = pid))

/-- The checked-milestones state after the mount effect and a sequence of
checkbox toggles `(milestoneId, checked)`. -/
def formChecked (floor oldMilestones : List String)
    (toggles : List (String × Bool)) : List String :=
  toggles.foldl (fun s t => handleCheckboxChange s t.1 t.2)
    (initialCheckedMilestones floor oldMilestones)

/-- One user-driven report write: `editRid = some rid` is the edit flow for
an existing document, `none` the creation flow at caller-supplied week
`newWeek`; `toggles` are the checkbox interactions in order; `mark` is the
completion-dialog decision (`false` both for "Just Save Report" and for
submissions that never showed the dialog). -/
structure FormWrite where
  editRid : Option String
  newWeek : Nat
  toggles : List (String × Bool)
  summary : String
  status : String
  mark : Bool
  now : String
  newId : String
deriving DecidableEq, Repr

/-- The inherited floor `ReportFormLoader` hands to the form for a given
write: milestones of reports strictly before the edited report's week
(edit flow) or before `newWeek` (creation flow). -/
def writeFloor (store : Store) (project : Project) (w : FormWrite) :
    List String :=
  let reports := projectReports store project.id
  match w.editRid with
  | some rid =>
    match reports.find? (fun r => decide (r.rid = rid)) with
    | some r => previouslyCompletedMilestones reports r.week
    | none => []
  | none => previouslyCompletedMilestones reports w.newWeek

/-- Execute one full form session against the store: load (`none` when the
edit target does not exist — the loader 404s), compute floor, initial
state, toggles, derived progress, then `saveReportAndProject`. -/
def applyFormWrite (catalog : List Milestone) (store : Store)
    (project : Project) (w : FormWrite) : Option WriteOutcome :=
  let reports := projectReports store project.id
  match w.editRid with
  | some rid =>
    match reports.find? (fun r => decide (r.rid = rid)) with
    | none => none
    | some r =>
      let floor := previouslyCompletedMilestones reports r.week
      let checked := formChecked floor r.milestones w.toggles
      let progress := progressValue checked (some catalog)
      let report : WeeklyReport :=
        ⟨some r.rid, r.projectId, r.week, r.progress, r.summary, r.status,
          r.milestones, r.createdAt⟩
      some (saveReportAndProject store project report w.summary w.status
        checked progress w.mark w.now w.newId)
  | none =>
    let floor := previouslyCompletedMilestones reports w.newWeek
    let checked := formChecked floor [] w.toggles
    let progress := progressValue checked (some catalog)
    let report : WeeklyReport :=
      ⟨none, project.id, w.newWeek, 0, "", "On Track", [], w.now⟩
    some (saveReportAndProject store project report w.summary w.status
      checked progress w.mark w.now w.newId)

/-- Apply a sequence of form writes in order (a write whose edit target is
missing leaves the store unchanged, as does a validation failure). -/
def applyFormWrites (catalog : List Milestone) (project : Project)
    (store : Store) (ws : List FormWrite) : Store :=
  ws.foldl (fun s w =>
    match applyFormWrite catalog s project w with
    | none => s
    | some o => outcomeStore s o) store

/-- The checkbox of a milestone in the inherited floor is rendered with
`disabled={isPreviouslyCompleted}`, so reachable toggle sequences never
target a floor milestone. -/
abbrev TogglesRespectDisabled (floor : List String)
    (toggles : List (String × Bool)) : Prop :=
  ∀ t ∈ toggles, t.1 ∉ floor

/-! ## Latest progress (`ProjectDetailView` / `GeneralReportView`) -/

/-- `reports[reports.length - 1]` — the last element of the list as passed
in. -/
def latestReport (reports : List StoredReport) : Option StoredReport :=
  reports.getLast?

/-- `latestReport?.progress ?? 0`. -/
def overallProgress (reports : List StoredReport) : Int :=
  (latestReport reports).elim 0 (fun r => r.progress)

/-! ## Project Deletion Coordinator (`handleDeleteProject`) -/

/-- `getDocs(reportsColRef)`: enumerate the weekly reports under the
project. -/
def getDocsReports (store : Store) (pid : String) : List StoredReport :=
  store.reports.filter (fun r => decide (r.projectId = pid))

/-- `batch.commit()` for the assembled write batch: atomically delete the
enumerated report documents and the project document.  Firestore commits a
`writeBatch` as a single atomic unit; a denied commit changes nothing. -/
def batchCommitDelete (store : Store) (pid : String) (rids : List String) :
    Store :=
  { projects := store.projects.filter (fun p => decide (p.id ≠ pid))
    reports := store.reports.filter (fun r =>
      decide (¬ (r.projectId = pid ∧ r.rid ∈ rids))) }

/-- `handleDeleteProject` of `ProjectDetailView`: enumerate the project's
reports, stage their deletion plus the project document's in one batch, and
commit; when the storage layer denies the commit (`permission-denied`) the
catch branch only emits the permission error, leaving the store as it
was. -/
def handleDeleteProject (authorized : Bool) (store : Store) (pid : String) :
    Store :=
  if authorized then
    batchCommitDelete store pid ((getDocsReports store pid).map (fun r => r.rid))
  else store

/-! ## Specification-side definitions

These follow the specification's words, for comparison against the
definitions above that were translated from the source. -/

/-- Spec wording of the Completion Decision: "the just-composed checked
milestone set equals the entire catalog subset for the project's type, the
catalog subset is nonzero in size, and the project's current status is not
already Completed". -/
abbrev specCompletionOffered (catalog : List Milestone)
    (checked : List String) (status : String) : Prop :=
  checked.toFinset = (catalog.map (fun m => m.id)).toFinset ∧
  catalog ≠ [] ∧ status ≠ "Completed"

/-- Spec wording of the write-time progress: "round(100*K/N) using
round-half-up on the real-valued percentage, and 0 whenever N = 0". -/
def specProgressRound (k n : Nat) : Int :=
  if n = 0 then 0 else ⌊(100 * (k : ℚ) / (n : ℚ)) + 1 / 2⌋

/-- Spec wording of `latestProgress()`: `p` is "the progress field of the
report with the maximum week". -/
abbrev specMaxWeekProgress (reports : List StoredReport) (p : Int) : Prop :=
  ∃ r ∈ reports, r.progress = p ∧ ∀ x ∈ reports, x.week ≤ r.week

/-! ## Concrete fixtures for counterexamples and witnesses -/

/-- A demo project of type `solar-roof`, not yet completed. -/
def cexProject : Project :=
  ⟨"p1", "Demo Solar", "c1", "u1", "solar-roof", "2024-01-01", "2024-06-30",
    "On Track"⟩

/-- A one-milestone catalog subset for `solar-roof`. -/
def cexCatalogA : List Milestone := [⟨"A", "Site survey", "", "solar-roof"⟩]

/-- A two-milestone catalog subset for `solar-roof`. -/
def cexCatalogAB : List Milestone :=
  [⟨"A", "Site survey", "", "solar-roof"⟩, ⟨"B", "Permits", "", "solar-roof"⟩]

/-- C1 fixture: create the week-1 report, checking nothing. -/
def cexWrite1 : FormWrite := ⟨none, 1, [], "week one", "On Track", false, "t1", "r1"⟩

/-- C1 fixture: create the week-2 report, checking nothing. -/
def cexWrite2 : FormWrite := ⟨none, 2, [], "week two", "On Track", false, "t2", "r2"⟩

/-- C1 fixture: afterwards edit the week-1 report and check milestone `A`
(its checkbox is enabled: `A` is not in week 1's inherited floor, which is
empty). -/
def cexWrite3 : FormWrite :=
  ⟨some "r1", 0, [("A", true)], "week one edited", "On Track", false, "t3", "r3"⟩

/-- C1 fixture: the store after the three valid writes above. -/
def cexC1Final : Store :=
  applyFormWrites cexCatalogA cexProject ⟨[cexProject], []⟩
    [cexWrite1, cexWrite2, cexWrite3]

/-- C1 fixture: the resulting week-1 report. -/
def cexC1R1 : StoredReport :=
  ⟨"r1", "p1", 1, 100, "week one edited", "On Track", ["A"], "t1"⟩

/-- C1 fixture: the resulting week-2 report. -/
def cexC1R2 : StoredReport :=
  ⟨"r2", "p1", 2, 0, "week two", "On Track", [], "t2"⟩

/-- C1 witness fixture: an existing week-1 report that checked `A`. -/
def wdemoR1 : StoredReport :=
  ⟨"r1", "p1", 1, 50, "w1", "On Track", ["A"], "t0"⟩

/-- C1 witness fixture: store with the week-1 report present. -/
def wdemoStore : Store := ⟨[cexProject], [wdemoR1]⟩

/-- C1 witness fixture: create week 2, additionally checking `B`. -/
def wdemoWrite : FormWrite :=
  ⟨none, 2, [("B", true)], "w2", "On Track", false, "t2", "r2"⟩

/-- C1 witness fixture: the document that write persists. -/
def wdemoData : StoredReport :=
  ⟨"r2", "p1", 2, 100, "w2", "On Track", ["A", "B"], "t2"⟩

/-- C1 witness fixture: the store after that write. -/
def wdemoStore2 : Store := ⟨[cexProject], [wdemoR1, wdemoData]⟩

/-- C3 fixture: `n` pairwise-distinct milestone ids. -/
def cexIds (n : Nat) : List String :=
  (List.range n).map (fun i => String.mk (List.replicate i 'a'))

/-- C3 fixture: a checked set of 23 distinct ids. -/
def cexChecked23 : List String := cexIds 23

/-- C3 fixture: a catalog subset of 40 distinct milestones. -/
def cexCatalog40 : List Milestone :=
  (cexIds 40).map (fun s => ⟨s, "", "", "solar-roof"⟩)

/-- C4 fixture: week-1 report with progress 10. -/
def cexC4A : StoredReport := ⟨"a", "p1", 1, 10, "w1", "On Track", [], "t1"⟩

/-- C4 fixture: week-2 report with progress 50. -/
def cexC4B : StoredReport := ⟨"b", "p1", 2, 50, "w2", "On Track", [], "t2"⟩

/-- C4 fixture: the two reports passed in descending week order. -/
def cexC4Demo : List StoredReport := [cexC4B, cexC4A]

/-- C4 witness fixture: the same reports in ascending week order. -/
def c4SortedDemo : List StoredReport := [cexC4A, cexC4B]

/-- C5 fixture: the project to delete. -/
def delP1 : Project := ⟨"p", "P", "c", "u", "solar-roof", "d1", "d2", "On Track"⟩

/-- C5 fixture: an unrelated surviving project. -/
def delP2 : Project := ⟨"q", "Q", "c", "u", "solar-roof", "d1", "d2", "On Track"⟩

/-- C5 fixture: a report of the deleted project. -/
def delR1 : StoredReport := ⟨"r1", "p", 1, 0, "s", "On Track", [], "t"⟩

/-- C5 fixture: a report of the surviving project. -/
def delR2 : StoredReport := ⟨"r2", "q", 1, 0, "s", "On Track", [], "t"⟩

/-- C5 fixture: store with both projects and one report each. -/
def delStore : Store := ⟨[delP1, delP2], [delR1, delR2]⟩

/-- C6/C9 fixture: a fresh (unsaved) week-3 report object. -/
def cexC9Report : WeeklyReport :=
  ⟨none, "p1", 3, 0, "", "On Track", [], "t"⟩

/-- C9 fixture: the checked set that fills the one-milestone catalog. -/
def cexC9Checked : List String := ["A"]

/-- C9 fixture: the store before the submission. -/
def cexC9Store : Store := ⟨[cexProject], []⟩

/-- C7 witness fixture: a stored week-1 report created at `T0`. -/
def w7R1 : StoredReport := ⟨"r1", "p1", 1, 0, "w1", "On Track", [], "T0"⟩

/-- C7 witness fixture: store holding that report. -/
def w7Store : Store := ⟨[cexProject], [w7R1]⟩

/-- C7 witness fixture: edit the report, changing only the summary. -/
def w7Write : FormWrite :=
  ⟨some "r1", 0, [], "edited summary", "On Track", false, "t9", "unused"⟩

/-- C7 witness fixture: the persisted document after the edit. -/
def w7Data : StoredReport :=
  ⟨"r1", "p1", 1, 0, "edited summary", "On Track", [], "T0"⟩

/-- C7 witness fixture: the store after the edit. -/
def w7Store2 : Store := ⟨[cexProject], [w7Data]⟩

/-- C9 witness fixture: a fresh week-3 report object for a valid decline. -/
def w9Report : WeeklyReport :=
  ⟨none, "p1", 3, 0, "", "On Track", [], "t9"⟩

/-- C9 witness fixture: the store before the valid decline submission. -/
def w9Store : Store := ⟨[cexProject], []⟩

/-! ## Helper lemmas -/

theorem mem_setAdd {acc : List String} {x y : String} :
    y ∈ setAdd acc x ↔ y ∈ acc ∨ y = x := by
  unfold setAdd
  split <;> rename_i h
  · constructor
    · exact fun hy => Or.inl hy
    · rintro (hy | rfl) <;> [exact hy; exact h]
  · simp [List.mem_append]

theorem nodup_setAdd {acc : List String} (h : acc.Nodup) (x : String) :
    (setAdd acc x).Nodup := by
  unfold setAdd
  split <;> rename_i hx
  · exact h
  · simpa [List.nodup_append, hx] using h

theorem mem_foldl_setAdd (l : List String) :
    ∀ acc y, y ∈ l.foldl setAdd acc ↔ y ∈ acc ∨ y ∈ l := by
  induction l with
  | nil => simp
  | cons a t ih =>
    intro acc y
    simp only [List.foldl_cons, ih, mem_setAdd, List.mem_cons]
    tauto

theorem nodup_foldl_setAdd (l : List String) :
    ∀ acc, acc.Nodup → (l.foldl setAdd acc).Nodup := by
  induction l with
  | nil => intro acc h; exact h
  | cons a t ih =>
    intro acc h
    exact ih _ (nodup_setAdd h a)

theorem mem_jsSetOfList {l : List String} {y : String} :
    y ∈ jsSetOfList l ↔ y ∈ l := by
  unfold jsSetOfList
  simp [mem_foldl_setAdd]

theorem nodup_jsSetOfList (l : List String) : (jsSetOfList l).Nodup :=
  nodup_foldl_setAdd l [] List.nodup_nil

theorem progressValue_eq_core (checked : List String) (ms : List Milestone) :
    progressValue checked (some ms) = progressCore checked.length ms.length := by
  unfold progressValue progressCore
  rfl

theorem writeReportDoc_projects (store : Store) (b : Bool) (data : StoredReport) :
    (writeReportDoc store b data).projects = store.projects := by
  unfold writeReportDoc
  split <;> rfl

theorem updateProjectStatus_reports (store : Store) (pid st : String) :
    (updateProjectStatus store pid st).reports = store.reports := rfl

theorem saveReportAndProject_of_invalid {store : Store} {project : Project}
    {report : WeeklyReport} {summary status : String}
    {checked : List String} {progress : Int} {mark : Bool} {now newId : String}
    (h : reportSchemaErrors ⟨summary, status, checked, progress⟩ ≠ []) :
    saveReportAndProject store project report summary status checked progress
        mark now newId =
      .invalid (reportSchemaErrors ⟨summary, status, checked, progress⟩) := by
  unfold saveReportAndProject
  rw [if_neg h]

theorem saveReportAndProject_of_valid {store : Store} {project : Project}
    {report : WeeklyReport} {summary status : String}
    {checked : List String} {progress : Int} {mark : Bool} {now newId : String}
    (h : reportSchemaErrors ⟨summary, status, checked, progress⟩ = []) :
    saveReportAndProject store project report summary status checked progress
        mark now newId =
      .written
        (if mark then
          updateProjectStatus
            (writeReportDoc store report.id.isNone
              (finalReportData report summary status checked progress now newId))
            project.id "Completed"
        else
          writeReportDoc store report.id.isNone
            (finalReportData report summary status checked progress now newId))
        (finalReportData report summary status checked progress now newId) := by
  unfold saveReportAndProject
  rw [if_pos h]

theorem mem_initialCheckedMilestones_left {floor old : List String} {m : String}
    (hm : m ∈ floor) : m ∈ initialCheckedMilestones floor old := by
  unfold initialCheckedMilestones
  rw [mem_jsSetOfList]
  exact List.mem_append_left _ hm

theorem mem_foldl_toggles (toggles : List (String × Bool)) :
    ∀ s m, m ∈ s → (∀ t ∈ toggles, t.1 ≠ m) →
      m ∈ toggles.foldl (fun s t => handleCheckboxChange s t.1 t.2) s := by
  induction toggles with
  | nil => intro s m hm _; simpa using hm
  | cons t ts ih =>
    intro s m hm hg
    simp only [List.foldl_cons]
    apply ih
    · unfold handleCheckboxChange
      split
      · exact List.mem_append_left _ hm
      · rw [List.mem_filter]
        refine ⟨hm, decide_eq_true ?_⟩
        exact Ne.symm (hg t (List.mem_cons_self t ts))
    · intro t2 ht2
      exact hg t2 (List.mem_cons_of_mem t ht2)

theorem mem_formChecked_of_mem_floor (floor old : List String)
    (toggles : List (String × Bool))
    (hg : TogglesRespectDisabled floor toggles) {m : String} (hm : m ∈ floor) :
    m ∈ formChecked floor old toggles := by
  unfold formChecked
  apply mem_foldl_toggles toggles _ m (mem_initialCheckedMilestones_left hm)
  intro t ht heq
  exact hg t ht (heq ▸ hm)

theorem getLast?_isMax (l : List StoredReport)
    (h : l.Pairwise (fun a b => a.week ≤ b.week)) (hne : l ≠ []) :
    ∃ r, l.getLast? = some r ∧ r ∈ l ∧ ∀ x ∈ l, x.week ≤ r.week := by
  induction l with
  | nil => exact absurd rfl hne
  | cons a t ih =>
    cases t with
    | nil =>
      refine ⟨a, rfl, List.mem_singleton_self a, ?_⟩
      intro x hx
      rcases List.mem_singleton.mp hx with rfl
      exact le_refl _
    | cons b t2 =>
      have hp := List.pairwise_cons.mp h
      obtain ⟨r, hr1, hr2, hr3⟩ := ih hp.2 (by simp)
      refine ⟨r, ?_, List.mem_cons_of_mem a hr2, ?_⟩
      · rw [List.getLast?_cons_cons]
        exact hr1
      · intro x hx
        rcases List.mem_cons.mp hx with rfl | hx2
        · exact hp.1 r hr2
        · exact hr3 x hx2

theorem specProgressRound_eq (k n : Nat) :
    specProgressRound k n =
      if n = 0 then 0 else (((200 * k + n) / (2 * n) : Nat) : Int) := by
  unfold specProgressRound
  by_cases hn : n = 0
  · simp [hn]
  · rw [if_neg hn, if_neg hn]
    have hq : ((n : ℚ)) ≠ 0 := Nat.cast_ne_zero.mpr hn
    have hrw : (100 * (k : ℚ) / (n : ℚ)) + 1 / 2 =
        ((200 * k + n : Nat) : ℚ) / ((2 * n : Nat) : ℚ) := by
      push_cast
      field_simp
      ring
    rw [hrw, Rat.floor_natCast_div_natCast]
    exact (Int.natCast_div _ _).symm

/-! ## C8 — Inherited-floor computation -/

/-- C8 — Inherited-floor computation: a milestone id is in
`previouslyCompletedMilestones reports w` exactly when some report with
`week < w` lists it (reports with `week ≥ w` contribute nothing), and the
result carries no duplicates. -/
theorem inheritedFloor_spec (reports : List StoredReport) (w : Nat) (m : String) :
    (m ∈ previouslyCompletedMilestones reports w ↔
      ∃ r ∈ reports, r.week < w ∧ m ∈ r.milestones) ∧
    (previouslyCompletedMilestones reports w).Nodup := by
  constructor
  · unfold previouslyCompletedMilestones
    rw [mem_jsSetOfList]
    simp only [List.mem_flatten, List.mem_map, List.mem_filter,
      decide_eq_true_eq]
    constructor
    · rintro ⟨ms, ⟨r, ⟨hr, hw⟩, rfl⟩, hm⟩
      exact ⟨r, hr, hw, hm⟩
    · rintro ⟨r, hr, hw, hm⟩
      exact ⟨r.milestones, ⟨r, ⟨hr, hw⟩, rfl⟩, hm⟩
  · exact nodup_jsSetOfList _

/-! ## C2 — Completion Decision -/

/-- C2 (counterexample) — With an empty catalog subset, an empty checked
list and a non-completed project, `handleFormSubmit` does show the
completion dialog (`0 == 0` and status differs from `Completed`), while the
claim demands the transition never be offered for an empty catalog
subset. -/
theorem completionDecision_counterexample :
    handleFormSubmitShowsDialog (some []) [] "On Track" = true ∧
    ¬ specCompletionOffered [] [] "On Track" := by
  decide

/-- C2 (amended) — The completion dialog is offered exactly when the checked
list's length equals the catalog subset's length (including both being
zero) and the project's status is not `Completed`; while the catalog query
is unresolved it is never offered.  Length equality, not set equality, is
what the code tests. -/
theorem completionDecision_amended (ms : List Milestone)
    (checked : List String) (status : String) :
    (handleFormSubmitShowsDialog (some ms) checked status = true ↔
      (checked.length = ms.length ∧ status ≠ "Completed")) ∧
    handleFormSubmitShowsDialog none checked status = false := by
  constructor
  · simp [handleFormSubmitShowsDialog]
  · rfl

/-! ## C3 — Write-time progress computation -/

set_option maxRecDepth 100000 in
/-- C3 (counterexample) — For a checked set of 23 distinct ids and a catalog
subset of 40 milestones, the binary64 evaluation of
`Math.round((23/40)*100)` yields 57, while round-half-up on the real value
57.5 yields 58: the claim's formula disagrees with the code. -/
theorem progressWriteTime_counterexample :
    progressValue cexChecked23 (some cexCatalog40) = 57 ∧
    specProgressRound 23 40 = 58 ∧
    cexChecked23.length = 23 ∧ cexChecked23.Nodup ∧
    cexCatalog40.length = 40 := by
  refine ⟨by decide, ?_, by decide, by decide, by decide⟩
  rw [specProgressRound_eq]
  decide

set_option maxRecDepth 100000 in
set_option maxHeartbeats 2000000 in
/-- C3 (amended) — The stored progress is `0` whenever the catalog subset is
empty (or unresolved), depends only on the two lengths, and agrees with
round-half-up on the exact percentage for every catalog subset of fewer
than 40 milestones; the first disagreement of the double evaluation with
the exact rounding occurs at catalog size 40. -/
theorem progressWriteTime_amended :
    (∀ checked : List String, ∀ ms : List Milestone, ms.length = 0 →
      progressValue checked (some ms) = 0) ∧
    (∀ checked : List String, progressValue checked none = 0) ∧
    (∀ checked : List String, ∀ ms : List Milestone,
      progressValue checked (some ms) = progressCore checked.length ms.length) ∧
    (∀ n < 40, ∀ k ≤ n, progressCore k n = specProgressRound k n) := by
  refine ⟨?_, ?_, ?_, ?_⟩
  · intro checked ms h
    simp [progressValue, h]
  · intro checked
    rfl
  · intro checked ms
    exact progressValue_eq_core checked ms
  · simp only [specProgressRound_eq]
    decide

/-- C3 (witness) — The amended theorem applied at a singleton checked set
with an empty catalog, and at one checked of two catalog milestones. -/
theorem progressWriteTime_amended_witness :
    progressValue ["a"] (some []) = 0 ∧
    progressCore 1 2 = specProgressRound 1 2 :=
  ⟨progressWriteTime_amended.1 ["a"] [] rfl,
   progressWriteTime_amended.2.2.2 2 (by decide) 1 (by decide)⟩

/-! ## C4 — latestProgress -/

/-- C4 (counterexample) — Passing the same two reports in descending week
order, the displayed overall progress is the last element's (week 1,
progress 10), not the maximum-week report's (week 2, progress 50): the
computation is not order-independent and does not select the maximum
week. -/
theorem latestProgress_counterexample :
    overallProgress cexC4Demo = 10 ∧
    cexC4A.week < cexC4B.week ∧ cexC4B.progress = 50 ∧
    ¬ specMaxWeekProgress cexC4Demo (overallProgress cexC4Demo) := by
  decide

/-- C4 (amended) — The displayed overall progress is the `progress` of the
last list element (`reports[reports.length - 1]`), `0` for an empty list;
when the list is sorted by week ascending — as both call sites obtain it
from the `orderBy('week', 'asc')` query — that element is a report of
maximal week, so the claim holds for the sorted order only. -/
theorem latestProgress_amended (reports : List StoredReport)
    (hsorted : reports.Pairwise (fun a b => a.week ≤ b.week)) :
    (reports = [] → overallProgress reports = 0) ∧
    (reports ≠ [] → specMaxWeekProgress reports (overallProgress reports)) := by
  constructor
  · rintro rfl
    rfl
  · intro hne
    obtain ⟨r, h1, h2, h3⟩ := getLast?_isMax reports hsorted hne
    refine ⟨r, h2, ?_, h3⟩
    unfold overallProgress latestReport
    rw [h1]
    rfl

/-- C4 (witness) — The amended theorem applied to the ascending-ordered
demo list. -/
theorem latestProgress_amended_witness :
    specMaxWeekProgress c4SortedDemo (overallProgress c4SortedDemo) :=
  (latestProgress_amended c4SortedDemo (by decide)).2 (by decide)

/-! ## C5 — Atomic project deletion -/

/-- C5 — Atomic project deletion: for every store and project id,
unconditionally, after an authorized call no project with the deleted id
and no report under the deleted project's path remain (the document is
absent and zero weekly reports survive), and an authorization-denied call
leaves the store exactly as it was — no partial deletion is observable,
the batch being the storage layer's single atomic commit. -/
theorem projectDeletion_atomic (store : Store) (pid : String) :
    (∀ p ∈ (handleDeleteProject true store pid).projects, p.id ≠ pid) ∧
    (∀ r ∈ (handleDeleteProject true store pid).reports, r.projectId ≠ pid) ∧
    handleDeleteProject false store pid = store := by
  refine ⟨?_, ?_, rfl⟩
  · intro p hp
    simp only [handleDeleteProject, if_true, batchCommitDelete,
      List.mem_filter, decide_eq_true_eq] at hp
    exact hp.2
  · intro r hr
    simp only [handleDeleteProject, if_true, batchCommitDelete,
      List.mem_filter, decide_eq_true_eq] at hr
    intro hpid
    apply hr.2
    refine ⟨hpid, ?_⟩
    refine List.mem_map.mpr ⟨r, ?_, rfl⟩
    unfold getDocsReports
    rw [List.mem_filter]
    exact ⟨hr.1, decide_eq_true hpid⟩

/-- C5 (witness) — The theorem applied to the two-project demo store and to
the store holding only the deleted project and its report: in the latter,
deletion empties the store and the denied call is the identity. -/
theorem projectDeletion_atomic_witness :
    delR2.projectId ≠ "p" ∧
    handleDeleteProject false delStore "p" = delStore ∧
    handleDeleteProject true ⟨[delP1], [delR1]⟩ "p" = ⟨[], []⟩ ∧
    handleDeleteProject false ⟨[delP1], [delR1]⟩ "p" = ⟨[delP1], [delR1]⟩ :=
  ⟨(projectDeletion_atomic delStore "p").2.1 delR2 (by decide),
   (projectDeletion_atomic delStore "p").2.2,
   by decide,
   (projectDeletion_atomic ⟨[delP1], [delR1]⟩ "p").2.2⟩

/-! ## C6 — Validation gate -/

/-- C6 — Validation gate: the schema accepts exactly when the summary is
non-empty, the status is one of the three allowed values and the progress
lies in `[0, 100]`; when it rejects, `saveReportAndProject` returns the
non-empty field-level error map and the store is left unchanged (no write
of any kind). -/
theorem validationGate (d : ReportDraft) (store : Store) (project : Project)
    (report : WeeklyReport) (mark : Bool) (now newId : String) :
    (reportSchemaErrors d = [] ↔
      (d.summary ≠ "" ∧ d.status ∈ allowedReportStatuses ∧
        0 ≤ d.progress ∧ d.progress ≤ 100)) ∧
    (reportSchemaErrors d ≠ [] →
      saveReportAndProject store project report d.summary d.status
          d.milestones d.progress mark now newId =
        .invalid (reportSchemaErrors d) ∧
      outcomeStore store
        (saveReportAndProject store project report d.summary d.status
          d.milestones d.progress mark now newId) = store) := by
  constructor
  · unfold reportSchemaErrors
    split_ifs with h1 h2 h3 <;> simp_all
  · intro hne
    have hsave := @saveReportAndProject_of_invalid store project report
      d.summary d.status d.milestones d.progress mark now newId hne
    rw [hsave]
    exact ⟨rfl, rfl⟩

/-- C6 (witness) — A draft with an empty summary is rejected, the summary
field error is surfaced, and the demo store is untouched. -/
theorem validationGate_witness :
    saveReportAndProject cexC9Store cexProject cexC9Report "" "On Track"
        [] 0 false "t" "rid" =
      .invalid [("summary", "Summary is required.")] ∧
    outcomeStore cexC9Store
      (saveReportAndProject cexC9Store cexProject cexC9Report "" "On Track"
        [] 0 false "t" "rid") = cexC9Store :=
  (validationGate ⟨"", "On Track", [], 0⟩ cexC9Store cexProject cexC9Report
    false "t" "rid").2 (by decide)

/-! ## C10 — Checkbox-update semantics -/

/-- C10 — Checkbox-update semantics: checking appends the id even when it is
already present (the list is not deduplicated, so the count reaches 2),
unchecking removes every occurrence of the id and no other element, and the
progress computation counts raw list length, so each duplicate occurrence
contributes to `K`. -/
theorem checkboxSemantics (s : List String) (m : String)
    (catalog : List Milestone) (hm : m ∈ s) :
    handleCheckboxChange s m true = s ++ [m] ∧
    2 ≤ (handleCheckboxChange s m true).count m ∧
    m ∉ handleCheckboxChange s m false ∧
    (∀ x, x ≠ m → (handleCheckboxChange s m false).count x = s.count x) ∧
    progressValue (handleCheckboxChange s m true) (some catalog) =
      progressCore (s.length + 1) catalog.length := by
  have happ : handleCheckboxChange s m true = s ++ [m] := rfl
  have hfil : handleCheckboxChange s m false =
      s.filter (fun i => decide (i ≠ m)) := rfl
  refine ⟨happ, ?_, ?_, ?_, ?_⟩
  · rw [happ, List.count_append]
    have h1 : 1 ≤ s.count m := List.one_le_count_iff.mpr hm
    have h2 : ([m] : List String).count m = 1 := by simp
    omega
  · rw [hfil]
    intro hmem
    rw [List.mem_filter] at hmem
    simpa using hmem.2
  · intro x hx
    rw [hfil, List.count_filter]
    simp [hx]
  · rw [progressValue_eq_core, happ, List.length_append, List.length_singleton]

/-- C10 (witness) — A singleton list re-checked yields the id twice; the
count of 2 is reached; unchecking empties it; an unrelated id's count is
preserved; the duplicated length feeds the progress core. -/
theorem checkboxSemantics_witness :
    handleCheckboxChange ["m1"] "m1" true = ["m1", "m1"] ∧
    2 ≤ (handleCheckboxChange ["m1"] "m1" true).count "m1" ∧
    "m1" ∉ handleCheckboxChange ["m1"] "m1" false ∧
    (handleCheckboxChange ["m1"] "m1" false).count "m2" =
      (["m1"] : List String).count "m2" ∧
    progressValue (handleCheckboxChange ["m1"] "m1" true) (some cexCatalogA) =
      progressCore 2 1 := by
  have h := checkboxSemantics ["m1"] "m1" cexCatalogA (by decide)
  exact ⟨h.1, h.2.1, h.2.2.1, h.2.2.2.1 "m2" (by decide), h.2.2.2.2⟩

/-! ## Write-outcome dissection lemmas -/

theorem saveReportAndProject_written_eq {store : Store} {project : Project}
    {report : WeeklyReport} {summary status : String} {checked : List String}
    {progress : Int} {mark : Bool} {now newId : String} {s' : Store}
    {data : StoredReport}
    (h : saveReportAndProject store project report summary status checked
        progress mark now newId = .written s' data) :
    data = finalReportData report summary status checked progress now newId ∧
    s' = (if mark then
            updateProjectStatus
              (writeReportDoc store report.id.isNone data) project.id "Completed"
          else writeReportDoc store report.id.isNone data) := by
  by_cases hv : reportSchemaErrors ⟨summary, status, checked, progress⟩ = []
  · rw [saveReportAndProject_of_valid hv] at h
    injection h with h1 h2
    refine ⟨h2.symm, ?_⟩
    rw [← h1, h2]
  · rw [saveReportAndProject_of_invalid hv] at h
    exact WriteOutcome.noConfusion h

theorem saveReportAndProject_written_milestones {store : Store}
    {project : Project} {report : WeeklyReport} {summary status : String}
    {checked : List String} {progress : Int} {mark : Bool} {now newId : String}
    {s' : Store} {data : StoredReport}
    (h : saveReportAndProject store project report summary status checked
        progress mark now newId = .written s' data) :
    data.milestones = checked := by
  rw [(saveReportAndProject_written_eq h).1]
  rfl

/-! ## C1 — Monotonic inheritance -/

set_option maxRecDepth 100000 in
/-- C1 (counterexample) — Starting from an empty store, the three valid
writes "create week 1", "create week 2", "edit week 1 and check milestone
A" (all checkboxes enabled, all validations passing) leave the store with
week 1 listing `A` and week 2 not listing it: monotonic inheritance fails
under out-of-order edits, because the inherited floor only constrains the
report being written, and nothing propagates a newly checked milestone to
already-existing later weeks. -/
theorem monotonicInheritance_counterexample :
    cexC1Final.reports = [cexC1R1, cexC1R2] ∧
    cexC1R1.week < cexC1R2.week ∧
    "A" ∈ cexC1R1.milestones ∧ "A" ∉ cexC1R2.milestones := by
  decide

/-- C1 (amended) — For each single write the invariant does hold: whenever a
form session whose toggles respect the disabled checkboxes (the source
disables exactly the floor milestones) persists a report, every milestone of
the inherited floor is contained in the persisted milestones set — the
removal of an inherited milestone is prevented by the disabled checkbox
(such a toggle is unreachable), not ignored by the state update.  Cross-week
monotonicity follows only for writes at maximal weeks; out-of-order edits
can still break it, as the counterexample shows. -/
theorem monotonicInheritance_amended (catalog : List Milestone) (store : Store)
    (project : Project) (w : FormWrite) (s' : Store) (data : StoredReport)
    (hguard : TogglesRespectDisabled (writeFloor store project w) w.toggles)
    (hw : applyFormWrite catalog store project w = some (.written s' data)) :
    ∀ m ∈ writeFloor store project w, m ∈ data.milestones := by
  intro m hm
  cases hrid : w.editRid with
  | some rid =>
    cases hfind : (projectReports store project.id).find?
        (fun x => decide (x.rid = rid)) with
    | none =>
      rw [applyFormWrite] at hw
      rw [hrid] at hw
      simp only [hfind] at hw
      exact Option.noConfusion hw
    | some r =>
      rw [applyFormWrite] at hw
      rw [hrid] at hw
      simp only [hfind, Option.some.injEq] at hw
      have hmil := saveReportAndProject_written_milestones hw
      have hwf : writeFloor store project w =
          previouslyCompletedMilestones (projectReports store project.id)
            r.week := by
        rw [writeFloor, hrid]
        simp only [hfind]
      rw [hmil]
      exact mem_formChecked_of_mem_floor _ r.milestones w.toggles
        (hwf ▸ hguard) (hwf ▸ hm)
  | none =>
    rw [applyFormWrite] at hw
    rw [hrid] at hw
    simp only [Option.some.injEq] at hw
    have hmil := saveReportAndProject_written_milestones hw
    have hwf : writeFloor store project w =
        previouslyCompletedMilestones (projectReports store project.id)
          w.newWeek := by
      rw [writeFloor, hrid]
    rw [hmil]
    exact mem_formChecked_of_mem_floor _ [] w.toggles
      (hwf ▸ hguard) (hwf ▸ hm)

set_option maxRecDepth 100000 in
/-- C1 (witness) — Creating week 2 on a store whose week-1 report checked
`A`: the floor `["A"]` is contained in the persisted milestones
`["A", "B"]`. -/
theorem monotonicInheritance_amended_witness :
    "A" ∈ wdemoData.milestones :=
  monotonicInheritance_amended cexCatalogAB wdemoStore cexProject wdemoWrite
    wdemoStore2 wdemoData (by decide) (by decide) "A" (by decide)

/-! ## C7 — createdAt immutability -/

/-- C7 — `createdAt` immutability: when a form session edits an existing
report (the loader found document `rid` holding `createdAt = T0`), the
persisted document carries the original `createdAt`, and after the write
every stored document with that key still carries it — an edit never
regenerates the creation timestamp (`createdAt: report.id ? report.createdAt
: new Date().toISOString()`). -/
theorem createdAtImmutable (catalog : List Milestone) (store : Store)
    (project : Project) (w : FormWrite) (rid : String) (r : StoredReport)
    (s' : Store) (data : StoredReport)
    (hrid : w.editRid = some rid)
    (hfind : (projectReports store project.id).find?
      (fun x => decide (x.rid = rid)) = some r)
    (hw : applyFormWrite catalog store project w = some (.written s' data)) :
    data.createdAt = r.createdAt ∧
    ∀ x ∈ s'.reports, x.rid = data.rid → x.projectId = data.projectId →
      x.createdAt = r.createdAt := by
  rw [applyFormWrite] at hw
  rw [hrid] at hw
  simp only [hfind, Option.some.injEq] at hw
  obtain ⟨hdata, hs⟩ := saveReportAndProject_written_eq hw
  have hca : data.createdAt = r.createdAt := by
    rw [hdata]
    rfl
  refine ⟨hca, ?_⟩
  intro x hx hxr hxp
  have hrep : s'.reports = store.reports.map (fun y =>
      if y.projectId = data.projectId ∧ y.rid = data.rid then data else y) := by
    rw [hs]
    split
    · rw [updateProjectStatus_reports]
      rfl
    · rfl
  rw [hrep] at hx
  obtain ⟨y, hy, hxy⟩ := List.mem_map.mp hx
  by_cases hc : y.projectId = data.projectId ∧ y.rid = data.rid
  · rw [if_pos hc] at hxy
    rw [← hxy]
    exact hca
  · rw [if_neg hc] at hxy
    rw [← hxy] at hxr hxp
    exact absurd ⟨hxp, hxr⟩ hc

set_option maxRecDepth 100000 in
/-- C7 (witness) — Editing the week-1 report created at `T0` (changing only
the summary) persists `createdAt = T0` unchanged. -/
theorem createdAtImmutable_witness :
    w7Data.createdAt = w7R1.createdAt :=
  (createdAtImmutable cexCatalogA w7Store cexProject w7Write "r1" w7R1
    w7Store2 w7Data rfl (by decide) (by decide)).1

/-! ## C9 — Decline frame -/

set_option maxRecDepth 100000 in
/-- C9 (counterexample) — A submission with every catalog milestone checked
but an empty summary triggers the Completion Decision; on decline
(`markProjectAsCompleted = false`) the validator rejects the draft, so no
report write is performed at all and the store is unchanged — contradicting
the claim that the report write is always performed on the decline path. -/
theorem declineFrame_counterexample :
    handleFormSubmitShowsDialog (some cexCatalogA) cexC9Checked
      cexProject.status = true ∧
    progressValue cexC9Checked (some cexCatalogA) = 100 ∧
    saveReportAndProject cexC9Store cexProject cexC9Report "" "On Track"
        cexC9Checked 100 false "t" "rid" =
      .invalid [("summary", "Summary is required.")] ∧
    outcomeStore cexC9Store
      (saveReportAndProject cexC9Store cexProject cexC9Report "" "On Track"
        cexC9Checked 100 false "t" "rid") = cexC9Store := by
  decide

/-- C9 (amended) — When the draft passes validation, declining the
completion dialog still performs the report write: the persisted document
carries the full checked milestones set and the computed progress, and the
projects collection — in particular the project's status — is left
completely untouched, since no project update is issued when
`markProjectAsCompleted` is false. -/
theorem declineFrame_amended (store : Store) (project : Project)
    (report : WeeklyReport) (summary status : String) (checked : List String)
    (progress : Int) (now newId : String)
    (hvalid : reportSchemaErrors ⟨summary, status, checked, progress⟩ = []) :
    saveReportAndProject store project report summary status checked progress
        false now newId =
      .written
        (writeReportDoc store report.id.isNone
          (finalReportData report summary status checked progress now newId))
        (finalReportData report summary status checked progress now newId) ∧
    (finalReportData report summary status checked progress now newId).milestones
      = checked ∧
    (finalReportData report summary status checked progress now newId).progress
      = progress ∧
    (writeReportDoc store report.id.isNone
      (finalReportData report summary status checked progress now newId)).projects
      = store.projects := by
  refine ⟨?_, rfl, rfl, writeReportDoc_projects _ _ _⟩
  rw [saveReportAndProject_of_valid hvalid]
  simp

/-- C9 (witness) — A valid decline submission: the write happens and the
projects collection of the demo store is untouched. -/
theorem declineFrame_amended_witness :
    (writeReportDoc w9Store w9Report.id.isNone
      (finalReportData w9Report "Good week" "On Track" ["A"] 100 "t9"
        "rid9")).projects = w9Store.projects :=
  (declineFrame_amended w9Store cexProject w9Report "Good week" "On Track"
    ["A"] 100 "t9" "rid9" (by decide)).2.2.2

end Solaris
